import Mathlib

/-
Verification of the detection-to-state reconstruction core of `parse-gam`
(file `src/parse_gam/scripts/parse_prediction.py`).

The embedding below translates the Python source into Lean:
detections and projected detections are records over `ℚ`; the shapely
rectangles produced by `to_polygon` are axis-aligned `Rect` values; the
pandas/geopandas frame operations (filter, sort_values, enum/reset_index,
sjoin, groupby-count-nlargest) become the corresponding list operations.
The greedy IoU deduplication loop (mutable `keep` list and `dropped` set)
becomes a structurally recursive function: the first pending row is kept
and every later pending row whose IoU with it exceeds the threshold is
removed before recursing, which is exactly what the index-based loop does.
-/

attribute [local semireducible] Rat.add Rat.sub Rat.mul Rat.inv

/-- Class enumeration of the detector, `CLASS_MAPPING` in the source. -/
def CLASS_BOARD : ℕ := 0

/-- Class index of player-1 checkers (`CHECKER_P1`). -/
def CLASS_CHECKER_P1 : ℕ := 1

/-- Class index of player-2 checkers (`CHECKER_P2`). -/
def CLASS_CHECKER_P2 : ℕ := 2

/-- One detector output row: `clas x_center y_center width height conf`. -/
structure Detection where
  clas : ℕ
  x_center : ℚ
  y_center : ℚ
  width : ℚ
  height : ℚ
  conf : ℚ
deriving DecidableEq

/-- Axis-aligned rectangle, the shape `to_polygon` builds in the source. -/
structure Rect where
  x_min : ℚ
  x_max : ℚ
  y_min : ℚ
  y_max : ℚ
deriving DecidableEq

/-- Embeds `to_polygon`: the rectangle with corners `(cx ± w/2, cy ± h/2)`. -/
def to_polygon (d : Detection) : Rect :=
  ⟨d.x_center - d.width / 2, d.x_center + d.width / 2,
   d.y_center - d.height / 2, d.y_center + d.height / 2⟩

/-- Area of such a rectangle (shapely `.area` for nonnegative extents). -/
def Rect.area (r : Rect) : ℚ := (r.x_max - r.x_min) * (r.y_max - r.y_min)

/-- Overlap length of two closed intervals, clamped at zero. -/
def interLen (lo1 hi1 lo2 hi2 : ℚ) : ℚ := max 0 (min hi1 hi2 - max lo1 lo2)

/-- Intersection area of two axis-aligned rectangles. -/
def Rect.interArea (r s : Rect) : ℚ :=
  interLen r.x_min r.x_max s.x_min s.x_max * interLen r.y_min r.y_max s.y_min s.y_max

/-- Embeds `iou`: intersection over union, with union area computed as
`area p1 + area p2 - intersection` (what shapely's union gives for
rectangles), returning 0 when the union area is not positive. -/
def iou (p1 p2 : Rect) : ℚ :=
  let inter := p1.interArea p2
  let uni := p1.area + p2.area - inter
  if uni > 0 then inter / uni else 0

/-- Closed-set intersection predicate of two rectangles, the shapely
`intersects` predicate used by `sjoin` (touching boundaries count). -/
def Rect.intersects (r s : Rect) : Bool :=
  decide (max r.x_min s.x_min ≤ min r.x_max s.x_max) &&
  decide (max r.y_min s.y_min ≤ min r.y_max s.y_max)

/-- Fueled form of the greedy deduplication loop of `deduplicate_gdf`:
keep the first pending row, drop every later pending row whose IoU with the
kept one strictly exceeds the threshold, recurse on the remaining rows.
The fuel only makes the recursion structural; `deduplicate_gdf` supplies
`l.length`, which is always enough. -/
def dedupFuel {α : Type} (geom : α → Rect) (thr : ℚ) : ℕ → List α → List α
  | _, [] => []
  | 0, _ :: _ => []
  | n + 1, d :: rest =>
      d :: dedupFuel geom thr n (rest.filter fun e => decide (iou (geom d) (geom e) ≤ thr))

/-- Embeds `deduplicate_gdf(gdf, iou_threshold)`. The source is generic in
the frame's schema and reads the `geometry` column; here `geom` plays the
role of that column. -/
def deduplicate_gdf {α : Type} (geom : α → Rect) (thr : ℚ) (l : List α) : List α :=
  dedupFuel geom thr l.length l

/-- Stable insertion into a list sorted by `x_center` (ascending). -/
def insertByX (d : Detection) : List Detection → List Detection
  | [] => [d]
  | e :: rest =>
      if e.x_center ≤ d.x_center then e :: insertByX d rest else d :: e :: rest

/-- Embeds `sort_values(by="x_center")`: a stable ascending sort. -/
def sortByX : List Detection → List Detection
  | [] => []
  | d :: rest => insertByX d (sortByX rest)

/-- Embeds the board-locating prefix of `parse_board_state`: filter to the
`BOARD` class, sort by `x_center`, attach `board_index` 0,1,... in that
order (`reset_index`), then deduplicate. -/
def boardsOf (predictions : List Detection) : List (ℕ × Detection) :=
  deduplicate_gdf (fun b => to_polygon b.2) (8 / 10)
    ((sortByX (predictions.filter fun d => d.clas == CLASS_BOARD)).enum)

/-- A row of the projected frame produced by `project_onto_board`. -/
structure ProjDetection where
  clas : ℕ
  conf : ℚ
  board_index : ℕ
  x_center : ℚ
  y_center : ℚ
  width : ℚ
  height : ℚ
deriving DecidableEq

/-- Embeds `project_onto_board` on one joined row: board columns come from
the left (board) row `b`, prediction columns from the right row `p`. -/
def project_onto_board (b : ℕ × Detection) (p : Detection) : ProjDetection :=
  { clas := p.clas
    conf := p.conf
    board_index := b.1
    x_center := (p.x_center - b.2.x_center + b.2.width / 2) / b.2.width
    y_center := (p.y_center - b.2.y_center + b.2.height / 2) / b.2.height
    width := p.width / b.2.width
    height := p.height / b.2.height }

/-- Geometry column recomputed from projected coordinates (source line
`projected["geometry"] = projected.apply(to_polygon, ...)`). -/
def to_polygonP (p : ProjDetection) : Rect :=
  ⟨p.x_center - p.width / 2, p.x_center + p.width / 2,
   p.y_center - p.height / 2, p.y_center + p.height / 2⟩

/-- Embeds `boards.sjoin(predictions, how="inner").apply(project_onto_board)`:
for each board row in order, every prediction whose rectangle intersects the
board's rectangle produces one projected row. -/
def sjoinProject (boards : List (ℕ × Detection)) (predictions : List Detection) :
    List ProjDetection :=
  boards.flatMap fun b =>
    (predictions.filter fun p => (to_polygon b.2).intersects (to_polygon p)).map
      (project_onto_board b)

/-- The class filter `projected.clas.isin([CHECKER_P1, CHECKER_P2])`. -/
def isChecker (p : ProjDetection) : Bool :=
  p.clas == CLASS_CHECKER_P1 || p.clas == CLASS_CHECKER_P2

/-- The projected checker rows of a frame: join every prediction to the
(deduplicated) boards it overlaps and keep only checker classes. -/
def projectedCheckers (predictions : List Detection) : List ProjDetection :=
  (sjoinProject (boardsOf predictions) predictions).filter isChecker

/-- The two board halves iterated by `parse_half_board_state`. -/
inductive Half
  | UPPER
  | LOWER
deriving DecidableEq

/-- Iteration order of the halves in the source. -/
def halves : List Half := [Half.UPPER, Half.LOWER]

/-- Column center `h_pos = h_point_index / 6 + (1/6/2)`. -/
def hPos (h : ℕ) : ℚ := (h : ℚ) / 6 + 1 / 6 / 2

/-- The fixed x tolerance `CHECKER_POINT_X_TOLERANCE = 0.07`. -/
def CHECKER_POINT_X_TOLERANCE : ℚ := 7 / 100

/-- Selection predicate of one `(half, column)` bucket: the strict
half test on `y_center` and the strict tolerance window on `x_center`. -/
def inBucket (half : Half) (h : ℕ) (p : ProjDetection) : Bool :=
  (match half with
   | Half.LOWER => decide (p.y_center > 1 / 2)
   | Half.UPPER => decide (p.y_center < 1 / 2)) &&
  decide (|p.x_center - hPos h| < CHECKER_POINT_X_TOLERANCE)

/-- The rows of `gdf` selected into bucket `(half, h)`. -/
def bucketSelect (gdf : List ProjDetection) (half : Half) (h : ℕ) : List ProjDetection :=
  gdf.filter (inBucket half h)

/-- The `Point` label of a bucket: `6 - h` on the lower half and `7 + h`
on the upper half. -/
def pointIndex : Half → ℕ → ℕ
  | Half.LOWER, h => 6 - h
  | Half.UPPER, h => 7 + h

/-- Insertion into an ascending duplicate-free list of class indices. -/
def insertSortedDistinct (x : ℕ) : List ℕ → List ℕ
  | [] => [x]
  | y :: rest =>
      if x = y then y :: rest
      else if y < x then y :: insertSortedDistinct x rest
      else x :: y :: rest

/-- The distinct class indices of the rows, ascending — the group keys of
`d.groupby("clas")` (pandas sorts group keys). -/
def sortedClasses (d : List ProjDetection) : List ℕ :=
  d.foldl (fun acc p => insertSortedDistinct p.clas acc) []

/-- Embeds `d.groupby("clas").count().reset_index()`: one `(clas, size)`
row per class, in ascending class order. -/
def classCounts (d : List ProjDetection) : List (ℕ × ℕ) :=
  (sortedClasses d).map fun cl => (cl, (d.filter fun p => p.clas == cl).length)

/-- Embeds `.nlargest(1, "board_index")["clas"]` on the count frame: the
class of the row with the largest count, ties resolved in favor of the
earliest row (pandas keeps the first), i.e. the smallest class index. -/
def nlargestClass (counts : List (ℕ × ℕ)) : Option ℕ :=
  match counts with
  | [] => none
  | c :: rest => some (rest.foldl (fun best q => if q.2 > best.2 then q else best) c).1

/-- Majority-vote class of the selected rows, `none` when none selected. -/
def majorityClass (d : List ProjDetection) : Option ℕ :=
  nlargestClass (classCounts d)

/-- The `class_index` finally used by a bucket: majority vote, defaulting
to `CHECKER_P2` when no rows were selected. -/
def bucketClassIndex (d : List ProjDetection) : ℕ :=
  match majorityClass d with
  | none => CLASS_CHECKER_P2
  | some k => k

/-- The deduplicated piece count `num_checkers` of a bucket. -/
def bucketCount (d : List ProjDetection) : ℕ :=
  (deduplicate_gdf to_polygonP (8 / 10) d).length

/-- The signed value a bucket stores: `+num_checkers` when the majority
class is `CHECKER_P2`, else `-num_checkers`. -/
def bucketValue (d : List ProjDetection) : ℤ :=
  if bucketClassIndex d == CLASS_CHECKER_P2 then (bucketCount d : ℤ)
  else -(bucketCount d : ℤ)

/-- Embeds `parse_half_board_state`: one `(point label, signed count)`
entry per half and column. -/
def parse_half_board_state (gdf : List ProjDetection) : List (ℕ × ℤ) :=
  halves.flatMap fun half =>
    (List.range 6).map fun h =>
      (pointIndex half h, bucketValue (bucketSelect gdf half h))

/-- The status flag of an output record. -/
inductive Status
  | VALID
  | UNPARSEABLE
deriving DecidableEq

/-- A per-frame output record: the status flag and the point entries
(empty when the frame is unparseable). -/
structure FullState where
  status : Status
  points : List (ℕ × ℤ)
deriving DecidableEq

/-- Dictionary access `state[f"Point_{k}"]` on a half-board state. -/
def lookupZ (s : List (ℕ × ℤ)) (k : ℕ) : ℤ := (s.lookup k).getD 0

/-- Embeds the merge loop of `parse_board_state`: canonical point `x` takes
board-1's point `x` for `x ≤ 6`, board-0's point `x - 6` for `7 ≤ x ≤ 18`,
and board-1's point `x - 12` for `19 ≤ x ≤ 24`. -/
def merge_states (s1 s2 : List (ℕ × ℤ)) : List (ℕ × ℤ) :=
  (List.range' 1 24).map fun x =>
    (x,
      if x ≤ 6 then lookupZ s2 x
      else if x ≤ 12 then lookupZ s1 (x - 6)
      else if x ≤ 18 then lookupZ s1 (x - 6)
      else lookupZ s2 (x - 12))

/-- Embeds `parse_board_state`: locate the two boards, project and filter
to checkers, parse each board's half states, merge, attach `VALID`; the
two early-return `None` branches are the two failure conditions. -/
def parse_board_state (predictions : List Detection) :
    Option (FullState × List ProjDetection) :=
  let boards := boardsOf predictions
  if boards.length ≠ 2 then none
  else
    let projected := (sjoinProject boards predictions).filter isChecker
    if projected.length = 0 then none
    else
      let state_board_1 := parse_half_board_state (projected.filter fun p => p.board_index == 0)
      let state_board_2 := parse_half_board_state (projected.filter fun p => p.board_index == 1)
      some (⟨Status.VALID, merge_states state_board_1 state_board_2⟩, projected)

/-- Embeds the per-frame driver `parse_single_prediction`: a `None` from
`parse_board_state` becomes the `{status: "UNPARSEABLE"}` record. -/
def parse_single_prediction (predictions : List Detection) : FullState :=
  match parse_board_state predictions with
  | none => ⟨Status.UNPARSEABLE, []⟩
  | some (board_state, _) => board_state

/-- The positions (row numbers of the input frame) that the greedy
deduplication keeps, read off by running it on the enumerated rows.
This mirrors the `keep` index list that the source's loop builds. -/
def keptIdx {α : Type} (geom : α → Rect) (thr : ℚ) (l : List α) : List ℕ :=
  (deduplicate_gdf (fun p => geom p.2) thr l.enum).map Prod.fst

/-- A frame with three `BOARD` detections, the first two identical: input
for exercising the board-index assignment through deduplication. -/
def threeBoardFrame : List Detection :=
  [⟨0, 1/4, 1/2, 1/5, 1/5, 1⟩, ⟨0, 1/4, 1/2, 1/5, 1/5, 1⟩, ⟨0, 3/4, 1/2, 1/5, 1/5, 1⟩]

/-- Class index of a synthetic checker: `CHECKER_P2` when the flag is
true, `CHECKER_P1` otherwise. -/
def clasOf (b : Bool) : ℕ := if b then CLASS_CHECKER_P2 else CLASS_CHECKER_P1

/-- The signed unit count a position should report: `+1` for a
`CHECKER_P2` checker, `-1` for a `CHECKER_P1` checker. -/
def sign (b : Bool) : ℤ := if b then 1 else -1

/-- Left board of the synthetic frame: the unit-height board covering
`[0, 1/2] × [0, 1]`. -/
def board0det : Detection := ⟨CLASS_BOARD, 1/4, 1/2, 1/2, 1, 1⟩

/-- Right board of the synthetic frame: covering `[1/2, 1] × [0, 1]`. -/
def board1det : Detection := ⟨CLASS_BOARD, 3/4, 1/2, 1/2, 1, 1⟩

/-- A synthetic checker detection of width and height `1/50` at frame
coordinates `(xf, yf)` with class flag `b`. -/
def checkerAt (xf yf : ℚ) (b : Bool) : Detection := ⟨clasOf b, xf, yf, 1/50, 1/50, 1⟩

/-- The synthetic end-to-end frame: the two boards and, for every
canonical position `i` (1-based), exactly one checker of class
`clasOf (c (i-1))` at the position's nominal column center and half
center inside its board.  Canonical positions 1-6 and 19-24 live on the
right board (lower resp. upper half), 7-12 and 13-18 on the left board.
The checker for position `i` sits at `x = hPos h` and `y = 3/4` (lower)
or `y = 1/4` (upper) in its board's coordinates, mapped back to frame
coordinates through the board's extent. -/
def syntheticFrame (c : ℕ → Bool) : List Detection :=
  [board0det, board1det,
   checkerAt ((hPos 5 + 1)/2) (3/4) (c 0),
   checkerAt ((hPos 4 + 1)/2) (3/4) (c 1),
   checkerAt ((hPos 3 + 1)/2) (3/4) (c 2),
   checkerAt ((hPos 2 + 1)/2) (3/4) (c 3),
   checkerAt ((hPos 1 + 1)/2) (3/4) (c 4),
   checkerAt ((hPos 0 + 1)/2) (3/4) (c 5),
   checkerAt (hPos 5 / 2) (3/4) (c 6),
   checkerAt (hPos 4 / 2) (3/4) (c 7),
   checkerAt (hPos 3 / 2) (3/4) (c 8),
   checkerAt (hPos 2 / 2) (3/4) (c 9),
   checkerAt (hPos 1 / 2) (3/4) (c 10),
   checkerAt (hPos 0 / 2) (3/4) (c 11),
   checkerAt (hPos 0 / 2) (1/4) (c 12),
   checkerAt (hPos 1 / 2) (1/4) (c 13),
   checkerAt (hPos 2 / 2) (1/4) (c 14),
   checkerAt (hPos 3 / 2) (1/4) (c 15),
   checkerAt (hPos 4 / 2) (1/4) (c 16),
   checkerAt (hPos 5 / 2) (1/4) (c 17),
   checkerAt ((hPos 0 + 1)/2) (1/4) (c 18),
   checkerAt ((hPos 1 + 1)/2) (1/4) (c 19),
   checkerAt ((hPos 2 + 1)/2) (1/4) (c 20),
   checkerAt ((hPos 3 + 1)/2) (1/4) (c 21),
   checkerAt ((hPos 4 + 1)/2) (1/4) (c 22),
   checkerAt ((hPos 5 + 1)/2) (1/4) (c 23)]

/-- The expected output points of the synthetic frame: canonical point
`i` carries the signed unit count of the checker placed at position `i`. -/
def expectedPoints (c : ℕ → Bool) : List (ℕ × ℤ) :=
  [(1, sign (c 0)), (2, sign (c 1)), (3, sign (c 2)), (4, sign (c 3)),
   (5, sign (c 4)), (6, sign (c 5)), (7, sign (c 6)), (8, sign (c 7)),
   (9, sign (c 8)), (10, sign (c 9)), (11, sign (c 10)), (12, sign (c 11)),
   (13, sign (c 12)), (14, sign (c 13)), (15, sign (c 14)), (16, sign (c 15)),
   (17, sign (c 16)), (18, sign (c 17)), (19, sign (c 18)), (20, sign (c 19)),
   (21, sign (c 20)), (22, sign (c 21)), (23, sign (c 22)), (24, sign (c 23))]

/-- A projected checker row of the synthetic frame: class flag of checker
`k`, board `bi`, projected center `(x, y)`, projected extents `1/25 × 1/50`. -/
def projRow (c : ℕ → Bool) (k bi : ℕ) (x y : ℚ) : ProjDetection :=
  ⟨clasOf (c k), 1, bi, x, y, 1/25, 1/50⟩

/-- The 28 rows the spatial join produces on the synthetic frame: each
board row joined with both board detections (they touch at `x = 1/2`)
and with its own 12 checkers, written as the projection applications the
join performs. -/
def joinRows (c : ℕ → Bool) : List ProjDetection :=
  [project_onto_board (0, board0det) board0det,
   project_onto_board (0, board0det) board1det,
   project_onto_board (0, board0det) (checkerAt (hPos 5 / 2) (3/4) (c 6)),
   project_onto_board (0, board0det) (checkerAt (hPos 4 / 2) (3/4) (c 7)),
   project_onto_board (0, board0det) (checkerAt (hPos 3 / 2) (3/4) (c 8)),
   project_onto_board (0, board0det) (checkerAt (hPos 2 / 2) (3/4) (c 9)),
   project_onto_board (0, board0det) (checkerAt (hPos 1 / 2) (3/4) (c 10)),
   project_onto_board (0, board0det) (checkerAt (hPos 0 / 2) (3/4) (c 11)),
   project_onto_board (0, board0det) (checkerAt (hPos 0 / 2) (1/4) (c 12)),
   project_onto_board (0, board0det) (checkerAt (hPos 1 / 2) (1/4) (c 13)),
   project_onto_board (0, board0det) (checkerAt (hPos 2 / 2) (1/4) (c 14)),
   project_onto_board (0, board0det) (checkerAt (hPos 3 / 2) (1/4) (c 15)),
   project_onto_board (0, board0det) (checkerAt (hPos 4 / 2) (1/4) (c 16)),
   project_onto_board (0, board0det) (checkerAt (hPos 5 / 2) (1/4) (c 17)),
   project_onto_board (1, board1det) board0det,
   project_onto_board (1, board1det) board1det,
   project_onto_board (1, board1det) (checkerAt ((hPos 5 + 1)/2) (3/4) (c 0)),
   project_onto_board (1, board1det) (checkerAt ((hPos 4 + 1)/2) (3/4) (c 1)),
   project_onto_board (1, board1det) (checkerAt ((hPos 3 + 1)/2) (3/4) (c 2)),
   project_onto_board (1, board1det) (checkerAt ((hPos 2 + 1)/2) (3/4) (c 3)),
   project_onto_board (1, board1det) (checkerAt ((hPos 1 + 1)/2) (3/4) (c 4)),
   project_onto_board (1, board1det) (checkerAt ((hPos 0 + 1)/2) (3/4) (c 5)),
   project_onto_board (1, board1det) (checkerAt ((hPos 0 + 1)/2) (1/4) (c 18)),
   project_onto_board (1, board1det) (checkerAt ((hPos 1 + 1)/2) (1/4) (c 19)),
   project_onto_board (1, board1det) (checkerAt ((hPos 2 + 1)/2) (1/4) (c 20)),
   project_onto_board (1, board1det) (checkerAt ((hPos 3 + 1)/2) (1/4) (c 21)),
   project_onto_board (1, board1det) (checkerAt ((hPos 4 + 1)/2) (1/4) (c 22)),
   project_onto_board (1, board1det) (checkerAt ((hPos 5 + 1)/2) (1/4) (c 23))]

/-- The projected checker rows of the synthetic frame after the class
filter: the left board's 12 checkers then the right board's 12. -/
def projRows (c : ℕ → Bool) : List ProjDetection :=
  [projRow c 6 0 (11/12) (3/4), projRow c 7 0 (3/4) (3/4),
   projRow c 8 0 (7/12) (3/4), projRow c 9 0 (5/12) (3/4),
   projRow c 10 0 (1/4) (3/4), projRow c 11 0 (1/12) (3/4),
   projRow c 12 0 (1/12) (1/4), projRow c 13 0 (1/4) (1/4),
   projRow c 14 0 (5/12) (1/4), projRow c 15 0 (7/12) (1/4),
   projRow c 16 0 (3/4) (1/4), projRow c 17 0 (11/12) (1/4),
   projRow c 0 1 (11/12) (3/4), projRow c 1 1 (3/4) (3/4),
   projRow c 2 1 (7/12) (3/4), projRow c 3 1 (5/12) (3/4),
   projRow c 4 1 (1/4) (3/4), projRow c 5 1 (1/12) (3/4),
   projRow c 18 1 (1/12) (1/4), projRow c 19 1 (1/4) (1/4),
   projRow c 20 1 (5/12) (1/4), projRow c 21 1 (7/12) (1/4),
   projRow c 22 1 (3/4) (1/4), projRow c 23 1 (11/12) (1/4)]

/-- The synthetic frame's board-0 projected rows. -/
def projRows0 (c : ℕ → Bool) : List ProjDetection :=
  [projRow c 6 0 (11/12) (3/4), projRow c 7 0 (3/4) (3/4),
   projRow c 8 0 (7/12) (3/4), projRow c 9 0 (5/12) (3/4),
   projRow c 10 0 (1/4) (3/4), projRow c 11 0 (1/12) (3/4),
   projRow c 12 0 (1/12) (1/4), projRow c 13 0 (1/4) (1/4),
   projRow c 14 0 (5/12) (1/4), projRow c 15 0 (7/12) (1/4),
   projRow c 16 0 (3/4) (1/4), projRow c 17 0 (11/12) (1/4)]

/-- The synthetic frame's board-1 projected rows. -/
def projRows1 (c : ℕ → Bool) : List ProjDetection :=
  [projRow c 0 1 (11/12) (3/4), projRow c 1 1 (3/4) (3/4),
   projRow c 2 1 (7/12) (3/4), projRow c 3 1 (5/12) (3/4),
   projRow c 4 1 (1/4) (3/4), projRow c 5 1 (1/12) (3/4),
   projRow c 18 1 (1/12) (1/4), projRow c 19 1 (1/4) (1/4),
   projRow c 20 1 (5/12) (1/4), projRow c 21 1 (7/12) (1/4),
   projRow c 22 1 (3/4) (1/4), projRow c 23 1 (11/12) (1/4)]

/-- The half-board state of the synthetic frame's left board. -/
def halfState0 (c : ℕ → Bool) : List (ℕ × ℤ) :=
  [(7, sign (c 12)), (8, sign (c 13)), (9, sign (c 14)),
   (10, sign (c 15)), (11, sign (c 16)), (12, sign (c 17)),
   (6, sign (c 11)), (5, sign (c 10)), (4, sign (c 9)),
   (3, sign (c 8)), (2, sign (c 7)), (1, sign (c 6))]

/-- The half-board state of the synthetic frame's right board. -/
def halfState1 (c : ℕ → Bool) : List (ℕ × ℤ) :=
  [(7, sign (c 18)), (8, sign (c 19)), (9, sign (c 20)),
   (10, sign (c 21)), (11, sign (c 22)), (12, sign (c 23)),
   (6, sign (c 5)), (5, sign (c 4)), (4, sign (c 3)),
   (3, sign (c 2)), (2, sign (c 1)), (1, sign (c 0))]

lemma dedupFuel_sublist {α : Type} (geom : α → Rect) (thr : ℚ) :
    ∀ (n : ℕ) (l : List α), List.Sublist (dedupFuel geom thr n l) l := by
  intro n
  induction n with
  | zero => intro l; cases l <;> simp [dedupFuel]
  | succ n ih =>
      intro l
      cases l with
      | nil => simp [dedupFuel]
      | cons d rest =>
          simp only [dedupFuel]
          exact List.Sublist.cons₂ d ((ih _).trans (List.filter_sublist rest))

lemma dedupFuel_congr {α : Type} (geom : α → Rect) (thr : ℚ) :
    ∀ (n m : ℕ) (l : List α), l.length ≤ n → l.length ≤ m →
      dedupFuel geom thr n l = dedupFuel geom thr m l := by
  intro n
  induction n with
  | zero =>
      intro m l hn _
      rw [Nat.le_zero, List.length_eq_zero] at hn
      subst hn
      cases m <;> rfl
  | succ n ih =>
      intro m l hn hm
      cases l with
      | nil => cases m <;> rfl
      | cons d rest =>
          cases m with
          | zero => simp at hm
          | succ m =>
              simp only [dedupFuel]
              refine congrArg _ (ih m _ ?_ ?_) <;>
                exact le_trans (List.length_filter_le _ _)
                  (by simp only [List.length_cons] at hn hm; omega)

lemma deduplicate_gdf_cons {α : Type} (geom : α → Rect) (thr : ℚ) (d : α) (rest : List α) :
    deduplicate_gdf geom thr (d :: rest) =
      d :: deduplicate_gdf geom thr
        (rest.filter fun e => decide (iou (geom d) (geom e) ≤ thr)) := by
  unfold deduplicate_gdf
  simp only [List.length_cons, dedupFuel]
  exact congrArg _ (dedupFuel_congr geom thr _ _ _ (List.length_filter_le _ _) le_rfl)

lemma deduplicate_gdf_sublist {α : Type} (geom : α → Rect) (thr : ℚ) (l : List α) :
    List.Sublist (deduplicate_gdf geom thr l) l :=
  dedupFuel_sublist geom thr _ l

lemma dedupFuel_pairwise {α : Type} (geom : α → Rect) (thr : ℚ) :
    ∀ (n : ℕ) (l : List α), l.length ≤ n →
      (dedupFuel geom thr n l).Pairwise (fun a b => iou (geom a) (geom b) ≤ thr) := by
  intro n
  induction n with
  | zero =>
      intro l h
      rw [Nat.le_zero, List.length_eq_zero] at h
      subst h
      simp [dedupFuel]
  | succ n ih =>
      intro l hl
      cases l with
      | nil => simp [dedupFuel]
      | cons d rest =>
          simp only [dedupFuel, List.pairwise_cons]
          refine ⟨fun a ha => ?_, ?_⟩
          · have hmem := (dedupFuel_sublist geom thr n _).subset ha
            rw [List.mem_filter] at hmem
            exact of_decide_eq_true hmem.2
          · exact ih _ (le_trans (List.length_filter_le _ _)
              (by simp only [List.length_cons] at hl; omega))

lemma deduplicate_gdf_pairwise {α : Type} (geom : α → Rect) (thr : ℚ) (l : List α) :
    (deduplicate_gdf geom thr l).Pairwise (fun a b => iou (geom a) (geom b) ≤ thr) :=
  dedupFuel_pairwise geom thr _ l le_rfl

lemma dedupFuel_of_pairwise {α : Type} (geom : α → Rect) (thr : ℚ) :
    ∀ (n : ℕ) (l : List α), l.length ≤ n →
      l.Pairwise (fun a b => iou (geom a) (geom b) ≤ thr) →
      dedupFuel geom thr n l = l := by
  intro n
  induction n with
  | zero =>
      intro l h _
      rw [Nat.le_zero, List.length_eq_zero] at h
      subst h
      rfl
  | succ n ih =>
      intro l hl hp
      cases l with
      | nil => rfl
      | cons d rest =>
          rw [List.pairwise_cons] at hp
          have hf : rest.filter (fun e => decide (iou (geom d) (geom e) ≤ thr)) = rest :=
            List.filter_eq_self.mpr fun a ha => decide_eq_true (hp.1 a ha)
          simp only [dedupFuel, hf]
          exact congrArg _ (ih rest (by simp only [List.length_cons] at hl; omega) hp.2)

lemma deduplicate_gdf_idem {α : Type} (geom : α → Rect) (thr : ℚ) (l : List α) :
    deduplicate_gdf geom thr (deduplicate_gdf geom thr l) = deduplicate_gdf geom thr l :=
  dedupFuel_of_pairwise geom thr _ _ le_rfl (deduplicate_gdf_pairwise geom thr l)

lemma dedupFuel_map_snd {α : Type} (geom : α → Rect) (thr : ℚ) :
    ∀ (n : ℕ) (L : List (ℕ × α)),
      (dedupFuel (fun p => geom p.2) thr n L).map Prod.snd
        = dedupFuel geom thr n (L.map Prod.snd) := by
  intro n
  induction n with
  | zero => intro L; cases L <;> simp [dedupFuel]
  | succ n ih =>
      intro L
      cases L with
      | nil => simp [dedupFuel]
      | cons q rest =>
          simp only [dedupFuel, List.map_cons]
          refine congrArg _ ?_
          rw [List.filter_map]
          exact ih _

lemma deduplicate_gdf_eq_map_snd {α : Type} (geom : α → Rect) (thr : ℚ) (l : List α) :
    deduplicate_gdf geom thr l
      = (deduplicate_gdf (fun p => geom p.2) thr l.enum).map Prod.snd := by
  unfold deduplicate_gdf
  rw [dedupFuel_map_snd, List.enum_map_snd, List.enum_length]

lemma enum_pairwise_fst {α : Type} (l : List α) :
    l.enum.Pairwise (fun p q => p.1 < q.1) := by
  have h := List.pairwise_lt_range l.length
  rw [← List.enum_map_fst l, List.pairwise_map] at h
  exact h

lemma dedupFuel_mem_of_small {α : Type} (geom : α → Rect) (thr : ℚ) :
    ∀ (n : ℕ) (L : List (ℕ × α)), L.length ≤ n →
      L.Pairwise (fun p q => p.1 < q.1) →
      ∀ p ∈ L,
        (∀ q ∈ dedupFuel (fun r => geom r.2) thr n L, q.1 < p.1 →
          iou (geom q.2) (geom p.2) ≤ thr) →
        p ∈ dedupFuel (fun r => geom r.2) thr n L := by
  intro n
  induction n with
  | zero =>
      intro L hL _ p hp _
      rw [Nat.le_zero, List.length_eq_zero] at hL
      subst hL
      simp at hp
  | succ n ih =>
      intro L hL hw p hp hsmall
      cases L with
      | nil => simp at hp
      | cons q0 rest =>
          rw [List.pairwise_cons] at hw
          rcases List.mem_cons.mp hp with rfl | hp'
          · simp [dedupFuel]
          · have hq0 : q0 ∈ dedupFuel (fun r => geom r.2) thr (n + 1) (q0 :: rest) := by
              simp [dedupFuel]
            have hle : iou (geom q0.2) (geom p.2) ≤ thr :=
              hsmall q0 hq0 (hw.1 p hp')
            have hpf : p ∈ rest.filter
                (fun e => decide (iou (geom q0.2) (geom e.2) ≤ thr)) :=
              List.mem_filter.mpr ⟨hp', decide_eq_true hle⟩
            have htail := ih
              (rest.filter (fun e => decide (iou (geom q0.2) (geom e.2) ≤ thr)))
              (le_trans (List.length_filter_le _ _)
                (by simp only [List.length_cons] at hL; omega))
              (hw.2.sublist (List.filter_sublist rest))
              p hpf
              (fun q hq hlt => hsmall q (by simp only [dedupFuel]; exact List.mem_cons_of_mem _ hq) hlt)
            simp only [dedupFuel]
            exact List.mem_cons_of_mem _ htail

lemma dedupFuel_dropped_witness {α : Type} (geom : α → Rect) (thr : ℚ) :
    ∀ (n : ℕ) (L : List (ℕ × α)), L.length ≤ n →
      L.Pairwise (fun p q => p.1 < q.1) →
      ∀ p ∈ L, p ∉ dedupFuel (fun r => geom r.2) thr n L →
        ∃ q ∈ dedupFuel (fun r => geom r.2) thr n L,
          q.1 < p.1 ∧ thr < iou (geom q.2) (geom p.2) := by
  intro n
  induction n with
  | zero =>
      intro L hL _ p hp _
      rw [Nat.le_zero, List.length_eq_zero] at hL
      subst hL
      simp at hp
  | succ n ih =>
      intro L hL hw p hp hdrop
      cases L with
      | nil => simp at hp
      | cons q0 rest =>
          rw [List.pairwise_cons] at hw
          rcases List.mem_cons.mp hp with rfl | hp'
          · exact absurd (by simp [dedupFuel]) hdrop
          · by_cases hio : thr < iou (geom q0.2) (geom p.2)
            · exact ⟨q0, by simp [dedupFuel], hw.1 p hp', hio⟩
            · push_neg at hio
              have hpf : p ∈ rest.filter
                  (fun e => decide (iou (geom q0.2) (geom e.2) ≤ thr)) :=
                List.mem_filter.mpr ⟨hp', decide_eq_true hio⟩
              have hdrop' : p ∉ dedupFuel (fun r => geom r.2) thr n
                  (rest.filter (fun e => decide (iou (geom q0.2) (geom e.2) ≤ thr))) := by
                intro hmem
                exact hdrop (by simp only [dedupFuel]; exact List.mem_cons_of_mem _ hmem)
              obtain ⟨q, hq, hlt, hgt⟩ := ih _
                (le_trans (List.length_filter_le _ _)
                  (by simp only [List.length_cons] at hL; omega))
                (hw.2.sublist (List.filter_sublist rest))
                p hpf hdrop'
              exact ⟨q, by simp only [dedupFuel]; exact List.mem_cons_of_mem _ hq, hlt, hgt⟩

lemma filter_fst_mem_of_sublist {α : Type} :
    ∀ (L s : List (ℕ × α)), List.Sublist s L → L.Pairwise (fun p q => p.1 < q.1) →
      L.filter (fun p => decide (p.1 ∈ s.map Prod.fst)) = s := by
  intro L
  induction L with
  | nil =>
      intro s hs _
      rw [List.sublist_nil.mp hs]
      rfl
  | cons a L ihL =>
      intro s hs hw
      rw [List.pairwise_cons] at hw
      rcases List.sublist_cons_iff.mp hs with hsL | ⟨t, rfl, htL⟩
      · have hnota : a.1 ∉ s.map Prod.fst := by
          rw [List.mem_map]
          rintro ⟨q, hq, hfst⟩
          have := hw.1 q (hsL.subset hq)
          omega
        rw [List.filter_cons_of_neg (by simpa using hnota)]
        exact ihL s hsL hw.2
      · rw [List.filter_cons_of_pos (by simp)]
        refine congrArg _ ?_
        have hcongr : L.filter (fun p => decide (p.1 ∈ (a :: t).map Prod.fst))
            = L.filter (fun p => decide (p.1 ∈ t.map Prod.fst)) := by
          refine List.filter_congr fun p hp => ?_
          have hne : p.1 ≠ a.1 := by
            have := hw.1 p hp
            omega
          simp [hne]
        rw [hcongr]
        exact ihL t htL hw.2

lemma mem_enum_elim {α : Type} {l : List α} {q : ℕ × α} (hq : q ∈ l.enum) :
    ∃ h : q.1 < l.length, l[q.1] = q.2 := by
  rw [List.mem_enum_iff_getElem?] at hq
  exact List.getElem?_eq_some.mp hq

lemma keptIdx_complete {α : Type} (geom : α → Rect) (thr : ℚ) (l : List α)
    (i : ℕ) (hi : i < l.length)
    (hsmall : ∀ j (hj : j < l.length), j ∈ keptIdx geom thr l → j < i →
      iou (geom l[j]) (geom l[i]) ≤ thr) :
    i ∈ keptIdx geom thr l := by
  have hpw := enum_pairwise_fst l
  have hmem : (i, l[i]) ∈ l.enum :=
    List.mem_enum_iff_getElem?.mpr (List.getElem?_eq_getElem hi)
  have hinner : ∀ q ∈ dedupFuel (fun r => geom r.2) thr l.enum.length l.enum,
      q.1 < (i, l[i]).1 → iou (geom q.2) (geom (i, l[i]).2) ≤ thr := by
    intro q hq hlt
    have hqenum := (dedupFuel_sublist _ thr l.enum.length l.enum).subset hq
    obtain ⟨hql, hqe⟩ := mem_enum_elim hqenum
    have hjk : q.1 ∈ keptIdx geom thr l := List.mem_map_of_mem Prod.fst hq
    have := hsmall q.1 hql hjk hlt
    rw [hqe] at this
    exact this
  have h := dedupFuel_mem_of_small geom thr l.enum.length l.enum le_rfl hpw
    (i, l[i]) hmem hinner
  exact List.mem_map_of_mem Prod.fst h

lemma keptIdx_dropped {α : Type} (geom : α → Rect) (thr : ℚ) (l : List α)
    (i : ℕ) (hi : i < l.length) (hnot : i ∉ keptIdx geom thr l) :
    ∃ j, ∃ _ : j < l.length, j ∈ keptIdx geom thr l ∧ j < i ∧
      thr < iou (geom l[j]) (geom l[i]) := by
  have hpw := enum_pairwise_fst l
  have hmem : (i, l[i]) ∈ l.enum :=
    List.mem_enum_iff_getElem?.mpr (List.getElem?_eq_getElem hi)
  have hdrop : (i, l[i]) ∉ dedupFuel (fun r => geom r.2) thr l.enum.length l.enum := by
    intro hmem'
    exact hnot (List.mem_map_of_mem Prod.fst hmem')
  obtain ⟨q, hq, hlt, hgt⟩ :=
    dedupFuel_dropped_witness geom thr l.enum.length l.enum le_rfl hpw (i, l[i]) hmem hdrop
  have hqenum := (dedupFuel_sublist _ thr l.enum.length l.enum).subset hq
  obtain ⟨hql, hqe⟩ := mem_enum_elim hqenum
  refine ⟨q.1, hql, List.mem_map_of_mem Prod.fst hq, hlt, ?_⟩
  rw [hqe]
  exact hgt

lemma deduplicate_gdf_eq_filter_kept {α : Type} (geom : α → Rect) (thr : ℚ) (l : List α) :
    deduplicate_gdf geom thr l
      = (l.enum.filter fun p => decide (p.1 ∈ keptIdx geom thr l)).map Prod.snd := by
  rw [deduplicate_gdf_eq_map_snd]
  refine congrArg _ ?_
  exact (filter_fst_mem_of_sublist l.enum _
    (deduplicate_gdf_sublist _ thr l.enum) (enum_pairwise_fst l)).symm

/-- C4: `deduplicate_gdf` is the greedy single-pass procedure.  Its output
is a sublist of the input (so survivors keep their original relative
order), never longer than the input, empty on empty input, always keeps
the first record; the output consists exactly of the rows at the kept
positions `keptIdx`; a position is kept whenever its IoU with every
earlier-kept row is at most the threshold (so such a record is never
dropped); and every dropped position has an earlier-kept row whose IoU
with it strictly exceeds the threshold. -/
theorem deduplicate_gdf_greedy_characterization (thr : ℚ) (l : List Detection) :
    List.Sublist (deduplicate_gdf to_polygon thr l) l ∧
    (deduplicate_gdf to_polygon thr l).length ≤ l.length ∧
    deduplicate_gdf to_polygon thr ([] : List Detection) = [] ∧
    (∀ d rest, l = d :: rest → (deduplicate_gdf to_polygon thr l).head? = some d) ∧
    deduplicate_gdf to_polygon thr l
      = (l.enum.filter fun p => decide (p.1 ∈ keptIdx to_polygon thr l)).map Prod.snd ∧
    (∀ i (_ : i < l.length),
      (∀ j (_ : j < l.length), j ∈ keptIdx to_polygon thr l → j < i →
        iou (to_polygon l[j]) (to_polygon l[i]) ≤ thr) →
      i ∈ keptIdx to_polygon thr l) ∧
    (∀ i (_ : i < l.length), i ∉ keptIdx to_polygon thr l →
      ∃ j, ∃ _ : j < l.length, j ∈ keptIdx to_polygon thr l ∧ j < i ∧
        thr < iou (to_polygon l[j]) (to_polygon l[i])) := by
  refine ⟨deduplicate_gdf_sublist _ thr l,
    (deduplicate_gdf_sublist _ thr l).length_le,
    rfl,
    ?_,
    deduplicate_gdf_eq_filter_kept _ thr l,
    fun i hi hs => keptIdx_complete _ thr l i hi hs,
    fun i hi hn => keptIdx_dropped _ thr l i hi hn⟩
  rintro d rest rfl
  rw [deduplicate_gdf_cons]
  rfl

/-- Witness for C4 at a concrete input: on the three-board frame (rows 0
and 1 identical, row 2 disjoint), position 2 is kept because its IoU with
the only earlier-kept row is 0, and the head row is always kept. -/
theorem deduplicate_gdf_greedy_characterization_witness :
    2 ∈ keptIdx to_polygon (8/10) threeBoardFrame ∧
    (deduplicate_gdf to_polygon (8/10) threeBoardFrame).head?
      = some ⟨0, 1/4, 1/2, 1/5, 1/5, 1⟩ := by
  constructor
  · exact (deduplicate_gdf_greedy_characterization (8/10) threeBoardFrame).2.2.2.2.2.1
      2 (by decide) (by decide)
  · exact (deduplicate_gdf_greedy_characterization (8/10) threeBoardFrame).2.2.2.1
      ⟨0, 1/4, 1/2, 1/5, 1/5, 1⟩ _ rfl

/-- C8: deduplication is idempotent, both on raw detections (board
deduplication) and on projected rows (per-bucket deduplication): a second
pass over the survivors drops nothing. -/
theorem deduplicate_gdf_idempotent (thr : ℚ) :
    (∀ l : List Detection,
      deduplicate_gdf to_polygon thr (deduplicate_gdf to_polygon thr l)
        = deduplicate_gdf to_polygon thr l) ∧
    (∀ d : List ProjDetection,
      deduplicate_gdf to_polygonP thr (deduplicate_gdf to_polygonP thr d)
        = deduplicate_gdf to_polygonP thr d) :=
  ⟨fun l => deduplicate_gdf_idem to_polygon thr l,
   fun d => deduplicate_gdf_idem to_polygonP thr d⟩

lemma mem_insertByX (d : Detection) : ∀ (l : List Detection) (a : Detection),
    a ∈ insertByX d l ↔ a = d ∨ a ∈ l := by
  intro l
  induction l with
  | nil => simp [insertByX]
  | cons e rest ih =>
      intro a
      simp only [insertByX]
      split
      · simp only [List.mem_cons, ih]
        try tauto
      · simp only [List.mem_cons]
        try tauto

lemma insertByX_sorted (d : Detection) : ∀ (l : List Detection),
    l.Pairwise (fun a b => a.x_center ≤ b.x_center) →
    (insertByX d l).Pairwise (fun a b => a.x_center ≤ b.x_center) := by
  intro l
  induction l with
  | nil => intro _; simp [insertByX]
  | cons e rest ih =>
      intro hp
      rw [List.pairwise_cons] at hp
      simp only [insertByX]
      split
      · rename_i hle
        rw [List.pairwise_cons]
        refine ⟨fun a ha => ?_, ih hp.2⟩
        rcases (mem_insertByX d rest a).mp ha with rfl | ha'
        · exact hle
        · exact hp.1 a ha'
      · rename_i hgt
        push_neg at hgt
        rw [List.pairwise_cons]
        refine ⟨fun a ha => ?_, List.pairwise_cons.mpr ⟨hp.1, hp.2⟩⟩
        rcases List.mem_cons.mp ha with rfl | ha'
        · exact le_of_lt hgt
        · exact le_trans (le_of_lt hgt) (hp.1 a ha')

lemma sortByX_sorted : ∀ (l : List Detection),
    (sortByX l).Pairwise (fun a b => a.x_center ≤ b.x_center) := by
  intro l
  induction l with
  | nil => simp [sortByX]
  | cons d rest ih => exact insertByX_sorted d _ ih

lemma enum_pairwise_snd {α : Type} (R : α → α → Prop) (l : List α) (h : l.Pairwise R) :
    l.enum.Pairwise (fun p q => R p.2 q.2) := by
  have h2 : (l.enum.map Prod.snd).Pairwise R := by
    rw [List.enum_map_snd]
    exact h
  exact List.pairwise_map.mp h2

lemma boardsOf_head (predictions : List Detection) (b0 : ℕ × Detection)
    (bs : List (ℕ × Detection)) (h : boardsOf predictions = b0 :: bs) : b0.1 = 0 := by
  unfold boardsOf at h
  cases hs : sortByX (predictions.filter fun d => d.clas == CLASS_BOARD) with
  | nil => rw [hs] at h; simp [deduplicate_gdf, dedupFuel] at h
  | cons d r =>
      rw [hs, List.enum_cons, deduplicate_gdf_cons] at h
      injection h with h1 _
      rw [← h1]

/-- C3 counterexample: on a frame whose x-sorted `BOARD` list has three
entries with the first two identical, the board-locating step succeeds
(2 boards survive deduplication) yet the survivors carry indices 0 and 2,
not 0 and 1 — index 1 was assigned before deduplication and then dropped. -/
theorem board_index_claim_counterexample :
    (boardsOf threeBoardFrame).length = 2 ∧
    (boardsOf threeBoardFrame).map Prod.fst = [0, 2] ∧
    ¬ (boardsOf threeBoardFrame).map Prod.fst = [0, 1] :=
  ⟨by decide, by decide, by decide⟩

/-- C3 (amended): the surviving boards carry the indices of their
positions in the x-sorted pre-deduplication list: the indices are
strictly increasing, the first survivor always has index 0, survivors are
in ascending `x_center` order (index 0 is leftmost), and the surviving
indices are exactly `[0, 1]` whenever the frame's `BOARD` list had
exactly 2 entries before deduplication — but not necessarily when it had
3 or more. -/
theorem board_index_assignment (predictions : List Detection) :
    ((boardsOf predictions).map Prod.fst).Pairwise (fun a b => a < b) ∧
    (∀ b0 bs, boardsOf predictions = b0 :: bs → b0.1 = 0) ∧
    (boardsOf predictions).Pairwise (fun p q => p.2.x_center ≤ q.2.x_center) ∧
    ((sortByX (predictions.filter fun d => d.clas == CLASS_BOARD)).length = 2 →
      (boardsOf predictions).length = 2 →
      (boardsOf predictions).map Prod.fst = [0, 1]) := by
  refine ⟨?_, fun b0 bs h => boardsOf_head predictions b0 bs h, ?_, ?_⟩
  · refine List.pairwise_map.mpr ?_
    exact List.Pairwise.sublist (deduplicate_gdf_sublist _ _ _) (enum_pairwise_fst _)
  · exact List.Pairwise.sublist (deduplicate_gdf_sublist _ _ _)
      (enum_pairwise_snd _ _ (sortByX_sorted _))
  · intro hsort hkept
    have hsub : List.Sublist (boardsOf predictions)
        ((sortByX (predictions.filter fun d => d.clas == CLASS_BOARD)).enum) :=
      deduplicate_gdf_sublist _ _ _
    have heq : boardsOf predictions
        = (sortByX (predictions.filter fun d => d.clas == CLASS_BOARD)).enum := by
      refine hsub.eq_of_length ?_
      rw [List.enum_length, hsort, hkept]
    rw [heq, List.enum_map_fst, hsort]
    rfl

/-- Witness for C3 (amended) at a concrete input: a frame with exactly 2
board detections yields surviving indices `[0, 1]`. -/
theorem board_index_assignment_witness :
    (boardsOf [board0det, board1det]).map Prod.fst = [0, 1] :=
  (board_index_assignment [board0det, board1det]).2.2.2 (by decide) (by decide)

/-- C6: the projected coordinates satisfy exactly the formulas of
`project_onto_board`, and a detection whose rectangle lies fully inside
its board's rectangle projects to `x_center`, `y_center` within `[0, 1]`. -/
theorem projection_formula_and_bounds (b : ℕ × Detection) (p : Detection) :
    ((project_onto_board b p).x_center
        = (p.x_center - b.2.x_center + b.2.width / 2) / b.2.width ∧
      (project_onto_board b p).y_center
        = (p.y_center - b.2.y_center + b.2.height / 2) / b.2.height ∧
      (project_onto_board b p).width = p.width / b.2.width ∧
      (project_onto_board b p).height = p.height / b.2.height) ∧
    (0 < b.2.width → 0 < b.2.height → 0 ≤ p.width → 0 ≤ p.height →
      b.2.x_center - b.2.width / 2 ≤ p.x_center - p.width / 2 →
      p.x_center + p.width / 2 ≤ b.2.x_center + b.2.width / 2 →
      b.2.y_center - b.2.height / 2 ≤ p.y_center - p.height / 2 →
      p.y_center + p.height / 2 ≤ b.2.y_center + b.2.height / 2 →
      0 ≤ (project_onto_board b p).x_center ∧ (project_onto_board b p).x_center ≤ 1 ∧
      0 ≤ (project_onto_board b p).y_center ∧ (project_onto_board b p).y_center ≤ 1) := by
  constructor
  · exact ⟨rfl, rfl, rfl, rfl⟩
  · intro hw hh hpw hph hx1 hx2 hy1 hy2
    unfold project_onto_board
    simp only
    refine ⟨div_nonneg (by linarith) (le_of_lt hw), ?_,
      div_nonneg (by linarith) (le_of_lt hh), ?_⟩
    · rw [div_le_one hw]
      linarith
    · rw [div_le_one hh]
      linarith

/-- Witness for C6 at a concrete input: a small checker at the center of
the left board projects into `[0, 1] × [0, 1]`. -/
theorem projection_formula_and_bounds_witness :
    0 ≤ (project_onto_board (0, board0det) (checkerAt (1/4) (1/2) true)).x_center ∧
    (project_onto_board (0, board0det) (checkerAt (1/4) (1/2) true)).x_center ≤ 1 ∧
    0 ≤ (project_onto_board (0, board0det) (checkerAt (1/4) (1/2) true)).y_center ∧
    (project_onto_board (0, board0det) (checkerAt (1/4) (1/2) true)).y_center ≤ 1 :=
  (projection_formula_and_bounds (0, board0det) (checkerAt (1/4) (1/2) true)).2
    (by decide) (by decide) (by decide) (by decide)
    (by decide) (by decide) (by decide) (by decide)

lemma hPos_gap {h1 h2 : ℕ} (hne : h1 ≠ h2) : 1/6 ≤ |hPos h1 - hPos h2| := by
  rcases Nat.lt_or_ge h1 h2 with hlt | hge
  · have hc : (h1:ℚ) + 1 ≤ (h2:ℚ) := by exact_mod_cast hlt
    rw [abs_sub_comm, abs_of_nonneg (by unfold hPos; linarith)]
    unfold hPos
    linarith
  · have hlt2 : h2 < h1 := Nat.lt_of_le_of_ne hge (Ne.symm hne)
    have hc : (h2:ℚ) + 1 ≤ (h1:ℚ) := by exact_mod_cast hlt2
    rw [abs_of_nonneg (by unfold hPos; linarith)]
    unfold hPos
    linarith

lemma abs_triangle_columns (x c1 c2 : ℚ) : |c1 - c2| ≤ |x - c1| + |x - c2| := by
  have h0 := abs_add (c1 - x) (x - c2)
  have he : c1 - x + (x - c2) = c1 - c2 := by ring
  rw [he, abs_sub_comm c1 x] at h0
  exact h0

/-- C9: a projected detection is selected into at most one `(half,
column)` bucket: the two half tests are mutually exclusive and the
column windows are pairwise disjoint (adjacent centers are `1/6` apart,
which exceeds `2 × 0.07`). -/
theorem bucket_selection_disjoint (p : ProjDetection) (half1 half2 : Half) (h1 h2 : ℕ)
    (hh1 : h1 < 6) (hh2 : h2 < 6)
    (s1 : inBucket half1 h1 p = true) (s2 : inBucket half2 h2 p = true) :
    half1 = half2 ∧ h1 = h2 := by
  unfold inBucket at s1 s2
  rw [Bool.and_eq_true] at s1 s2
  have hx1 : |p.x_center - hPos h1| < CHECKER_POINT_X_TOLERANCE := of_decide_eq_true s1.2
  have hx2 : |p.x_center - hPos h2| < CHECKER_POINT_X_TOLERANCE := of_decide_eq_true s2.2
  have hcol : h1 = h2 := by
    by_contra hne
    have hd := hPos_gap hne
    have ht := abs_triangle_columns p.x_center (hPos h1) (hPos h2)
    unfold CHECKER_POINT_X_TOLERANCE at hx1 hx2
    linarith
  subst hcol
  refine ⟨?_, rfl⟩
  cases half1 <;> cases half2 <;> first
    | rfl
    | · exfalso
        have hy1 := of_decide_eq_true s1.1
        have hy2 := of_decide_eq_true s2.1
        linarith

/-- Witness for C9 at a concrete input: a projected checker at the
nominal center of the lower-half column 0 bucket is selected there, and
the theorem instantiated twice at that bucket returns the equalities. -/
theorem bucket_selection_disjoint_witness :
    Half.LOWER = Half.LOWER ∧ (0:ℕ) = 0 :=
  bucket_selection_disjoint ⟨2, 1, 0, 1/12, 3/4, 1/25, 1/50⟩
    Half.LOWER Half.LOWER 0 0 (by decide) (by decide) (by decide) (by decide)

/-- C10: boundary-valued projected detections are counted at no
position: `y_center` exactly `0.5` fails both half tests, and an
`x_center` exactly `0.07` away from some column center is selected in no
column window (both comparisons are strict, and the other centers are at
least `1/6 - 0.07 > 0.07` away). -/
theorem boundary_detections_unselected (p : ProjDetection) (half : Half) (h h0 : ℕ)
    (hh : h < 6) (hh0 : h0 < 6)
    (hbd : p.y_center = 1/2 ∨ |p.x_center - hPos h0| = CHECKER_POINT_X_TOLERANCE) :
    inBucket half h p = false := by
  unfold inBucket
  rcases hbd with hy | hx
  · cases half <;> simp [hy]
  · have hnot : ¬ (|p.x_center - hPos h| < CHECKER_POINT_X_TOLERANCE) := by
      rcases eq_or_ne h h0 with rfl | hne
      · rw [hx]
        exact lt_irrefl _
      · have hd := hPos_gap hne
        have ht := abs_triangle_columns p.x_center (hPos h) (hPos h0)
        rw [hx] at ht
        unfold CHECKER_POINT_X_TOLERANCE at ht ⊢
        intro hcon
        linarith
    rw [decide_eq_false hnot, Bool.and_false]

/-- Witness for C10 at a concrete input: a projected checker sitting
exactly on the horizontal midline is selected into no bucket. -/
theorem boundary_detections_unselected_witness :
    inBucket Half.UPPER 0 ⟨2, 1, 0, 1/12, 1/2, 1/25, 1/50⟩ = false :=
  boundary_detections_unselected ⟨2, 1, 0, 1/12, 1/2, 1/25, 1/50⟩
    Half.UPPER 0 0 (by decide) (by decide) (Or.inl (by decide))

/-- C7: each `(half, column)` bucket of `parse_half_board_state` stores,
under its point label, the deduplicated size of the selected set
(regardless of class) signed by the majority vote: positive for
`CHECKER_P2`, negative otherwise; with no selected detections the class
defaults to `CHECKER_P2` and the stored count is 0. -/
theorem bucket_aggregation_semantics (gdf : List ProjDetection) (half : Half) (h : ℕ)
    (hh : h < 6) :
    (parse_half_board_state gdf).lookup (pointIndex half h)
      = some (bucketValue (bucketSelect gdf half h)) ∧
    bucketCount (bucketSelect gdf half h)
      = (deduplicate_gdf to_polygonP (8/10) (bucketSelect gdf half h)).length ∧
    (∀ k, majorityClass (bucketSelect gdf half h) = some k →
      bucketValue (bucketSelect gdf half h)
        = if k = CLASS_CHECKER_P2 then (bucketCount (bucketSelect gdf half h) : ℤ)
          else -(bucketCount (bucketSelect gdf half h) : ℤ)) ∧
    (majorityClass (bucketSelect gdf half h) = none →
      bucketClassIndex (bucketSelect gdf half h) = CLASS_CHECKER_P2) ∧
    (bucketSelect gdf half h = [] →
      majorityClass (bucketSelect gdf half h) = none ∧
      bucketValue (bucketSelect gdf half h) = 0) := by
  refine ⟨?_, rfl, ?_, ?_, ?_⟩
  · cases half <;> interval_cases h <;> rfl
  · intro k hk
    unfold bucketValue bucketClassIndex
    rw [hk]
    by_cases hk2 : k = CLASS_CHECKER_P2
    · simp [hk2]
    · simp [hk2]
  · intro hnone
    unfold bucketClassIndex
    rw [hnone]
  · intro he
    rw [he]
    exact ⟨rfl, rfl⟩

/-- Witness for C7 at a concrete input: with no projected detections at
all, the lower-half column-0 bucket (point 6) stores count 0. -/
theorem bucket_aggregation_semantics_witness :
    (parse_half_board_state []).lookup (pointIndex Half.LOWER 0) = some 0 := by
  rw [(bucket_aggregation_semantics [] Half.LOWER 0 (by decide)).1]
  rfl

lemma merge_states_lookup_isSome (s1 s2 : List (ℕ × ℤ)) (x : ℕ)
    (h1 : 1 ≤ x) (h2 : x ≤ 24) :
    ∃ v, (merge_states s1 s2).lookup x = some v := by
  interval_cases x <;> exact ⟨_, rfl⟩

/-- C5: the state assembler's wiring — canonical points 1-6 read
board-1's points 1-6, points 7-12 read board-0's points 1-6, points
13-18 read board-0's points 7-12, and points 19-24 read board-1's points
7-12, for every pair of per-board outputs; a successfully assembled
record carries status `VALID`. -/
theorem state_assembler_wiring (s1 s2 : List (ℕ × ℤ)) :
    (∀ x, 1 ≤ x → x ≤ 6 → (merge_states s1 s2).lookup x = some (lookupZ s2 x)) ∧
    (∀ x, 7 ≤ x → x ≤ 12 → (merge_states s1 s2).lookup x = some (lookupZ s1 (x - 6))) ∧
    (∀ x, 13 ≤ x → x ≤ 18 → (merge_states s1 s2).lookup x = some (lookupZ s1 (x - 6))) ∧
    (∀ x, 19 ≤ x → x ≤ 24 → (merge_states s1 s2).lookup x = some (lookupZ s2 (x - 12))) ∧
    (∀ predictions st proj, parse_board_state predictions = some (st, proj) →
      st.status = Status.VALID) := by
  refine ⟨?_, ?_, ?_, ?_, ?_⟩
  · intro x h1 h2
    interval_cases x <;> rfl
  · intro x h1 h2
    interval_cases x <;> rfl
  · intro x h1 h2
    interval_cases x <;> rfl
  · intro x h1 h2
    interval_cases x <;> rfl
  · intro predictions st proj hps
    simp only [parse_board_state] at hps
    split at hps
    · exact absurd hps (by simp)
    · split at hps
      · exact absurd hps (by simp)
      · rw [Option.some_inj, Prod.mk.injEq] at hps
        rw [← hps.1]

/-- Witness for C5 at a concrete input: with singleton per-board states,
canonical point 1 reads board-1's point 1. -/
theorem state_assembler_wiring_witness :
    (merge_states [(1, 5)] [(1, 7)]).lookup 1 = some 7 := by
  rw [(state_assembler_wiring [(1, 5)] [(1, 7)]).1 1 (by decide) (by decide)]
  rfl

lemma parse_board_state_some (predictions : List Detection)
    (hb : (boardsOf predictions).length = 2) (hp : projectedCheckers predictions ≠ []) :
    parse_board_state predictions = some (⟨Status.VALID,
      merge_states
        (parse_half_board_state
          ((projectedCheckers predictions).filter fun p => p.board_index == 0))
        (parse_half_board_state
          ((projectedCheckers predictions).filter fun p => p.board_index == 1))⟩,
      projectedCheckers predictions) := by
  simp only [parse_board_state]
  rw [if_neg (fun hc => hc hb),
    show List.filter isChecker (sjoinProject (boardsOf predictions) predictions)
        = projectedCheckers predictions from rfl,
    if_neg (fun hc => hp (List.length_eq_zero.mp hc))]

lemma parse_board_state_none_of_boards (predictions : List Detection)
    (hb : (boardsOf predictions).length ≠ 2) :
    parse_board_state predictions = none := by
  simp only [parse_board_state]
  rw [if_pos hb]

lemma parse_board_state_none_of_empty (predictions : List Detection)
    (hp : projectedCheckers predictions = []) :
    parse_board_state predictions = none := by
  simp only [parse_board_state]
  by_cases hb : (boardsOf predictions).length ≠ 2
  · rw [if_pos hb]
  · rw [if_neg hb, if_pos (by rw [show (sjoinProject (boardsOf predictions) predictions).filter isChecker = projectedCheckers predictions from rfl, hp]; rfl)]

/-- C1: the per-frame output has status `UNPARSEABLE` (and then carries no
point entries) exactly when the deduplicated board count is not 2 or no
projected checker-class detections remain; in every other case the status
is `VALID` and all 24 point keys are present.  The embedding is a total
function, mirroring that neither failure raises an exception. -/
theorem unparseable_conditions (predictions : List Detection) :
    ((parse_single_prediction predictions).status = Status.UNPARSEABLE ↔
      (boardsOf predictions).length ≠ 2 ∨ projectedCheckers predictions = []) ∧
    ((parse_single_prediction predictions).status = Status.UNPARSEABLE →
      (parse_single_prediction predictions).points = []) ∧
    ((parse_single_prediction predictions).status = Status.VALID →
      ∀ x, 1 ≤ x → x ≤ 24 →
        ∃ v, (parse_single_prediction predictions).points.lookup x = some v) := by
  by_cases hb : (boardsOf predictions).length ≠ 2
  · have hst : parse_single_prediction predictions = ⟨Status.UNPARSEABLE, []⟩ := by
      unfold parse_single_prediction
      rw [parse_board_state_none_of_boards predictions hb]
    rw [hst]
    exact ⟨⟨fun _ => Or.inl hb, fun _ => rfl⟩, fun _ => rfl, fun hv => absurd hv (by simp)⟩
  · by_cases hp : projectedCheckers predictions = []
    · have hst : parse_single_prediction predictions = ⟨Status.UNPARSEABLE, []⟩ := by
        unfold parse_single_prediction
        rw [parse_board_state_none_of_empty predictions hp]
      rw [hst]
      exact ⟨⟨fun _ => Or.inr hp, fun _ => rfl⟩, fun _ => rfl, fun hv => absurd hv (by simp)⟩
    · push_neg at hb
      have hst : parse_single_prediction predictions = ⟨Status.VALID,
          merge_states
            (parse_half_board_state
              ((projectedCheckers predictions).filter fun p => p.board_index == 0))
            (parse_half_board_state
              ((projectedCheckers predictions).filter fun p => p.board_index == 1))⟩ := by
        unfold parse_single_prediction
        rw [parse_board_state_some predictions hb hp]
      rw [hst]
      refine ⟨⟨fun habs => absurd habs (by simp), fun hor => ?_⟩, fun habs => absurd habs (by simp), ?_⟩
      · rcases hor with h1 | h2
        · exact absurd hb h1
        · exact absurd h2 hp
      · intro _ x h1 h2
        exact merge_states_lookup_isSome _ _ x h1 h2

/-- Witness for C1 at concrete inputs: the empty frame is unparseable
with no point entries, and the synthetic 24-checker frame is valid with
point 1 present. -/
theorem unparseable_conditions_witness :
    (parse_single_prediction []).status = Status.UNPARSEABLE ∧
    (parse_single_prediction []).points = [] ∧
    (parse_single_prediction (syntheticFrame fun _ => true)).status = Status.VALID := by
  refine ⟨?_, ?_, ?_⟩
  · exact (unparseable_conditions []).1.mpr (Or.inl (by decide))
  · exact (unparseable_conditions []).2.1 ((unparseable_conditions []).1.mpr (Or.inl (by decide)))
  · have h := (unparseable_conditions (syntheticFrame fun _ => true)).1
    by_cases hs : (parse_single_prediction (syntheticFrame fun _ => true)).status = Status.UNPARSEABLE
    · have := h.mp hs
      exact absurd this (by decide)
    · cases hst : (parse_single_prediction (syntheticFrame fun _ => true)).status
      · rfl
      · exact absurd hst hs

lemma to_polygon_checkerAt (x y : ℚ) (b : Bool) :
    to_polygon (checkerAt x y b) = to_polygon (checkerAt x y true) := rfl

lemma projBB00 : project_onto_board (0, board0det) board0det
    = ⟨CLASS_BOARD, 1, 0, 1/2, 1/2, 1, 1⟩ := by decide

lemma projBB01 : project_onto_board (0, board0det) board1det
    = ⟨CLASS_BOARD, 1, 0, 3/2, 1/2, 1, 1⟩ := by decide

lemma projBB10 : project_onto_board (1, board1det) board0det
    = ⟨CLASS_BOARD, 1, 1, -(1/2), 1/2, 1, 1⟩ := by decide

lemma projBB11 : project_onto_board (1, board1det) board1det
    = ⟨CLASS_BOARD, 1, 1, 1/2, 1/2, 1, 1⟩ := by decide

lemma projEval6 (b : Bool) :
    project_onto_board (0, board0det) (checkerAt (hPos 5 / 2) (3/4) b)
      = ⟨clasOf b, 1, 0, 11/12, 3/4, 1/25, 1/50⟩ := by
  cases b <;> rfl

lemma projEval7 (b : Bool) :
    project_onto_board (0, board0det) (checkerAt (hPos 4 / 2) (3/4) b)
      = ⟨clasOf b, 1, 0, 3/4, 3/4, 1/25, 1/50⟩ := by
  cases b <;> rfl

lemma projEval8 (b : Bool) :
    project_onto_board (0, board0det) (checkerAt (hPos 3 / 2) (3/4) b)
      = ⟨clasOf b, 1, 0, 7/12, 3/4, 1/25, 1/50⟩ := by
  cases b <;> rfl

lemma projEval9 (b : Bool) :
    project_onto_board (0, board0det) (checkerAt (hPos 2 / 2) (3/4) b)
      = ⟨clasOf b, 1, 0, 5/12, 3/4, 1/25, 1/50⟩ := by
  cases b <;> rfl

lemma projEval10 (b : Bool) :
    project_onto_board (0, board0det) (checkerAt (hPos 1 / 2) (3/4) b)
      = ⟨clasOf b, 1, 0, 1/4, 3/4, 1/25, 1/50⟩ := by
  cases b <;> rfl

lemma projEval11 (b : Bool) :
    project_onto_board (0, board0det) (checkerAt (hPos 0 / 2) (3/4) b)
      = ⟨clasOf b, 1, 0, 1/12, 3/4, 1/25, 1/50⟩ := by
  cases b <;> rfl

lemma projEval12 (b : Bool) :
    project_onto_board (0, board0det) (checkerAt (hPos 0 / 2) (1/4) b)
      = ⟨clasOf b, 1, 0, 1/12, 1/4, 1/25, 1/50⟩ := by
  cases b <;> rfl

lemma projEval13 (b : Bool) :
    project_onto_board (0, board0det) (checkerAt (hPos 1 / 2) (1/4) b)
      = ⟨clasOf b, 1, 0, 1/4, 1/4, 1/25, 1/50⟩ := by
  cases b <;> rfl

lemma projEval14 (b : Bool) :
    project_onto_board (0, board0det) (checkerAt (hPos 2 / 2) (1/4) b)
      = ⟨clasOf b, 1, 0, 5/12, 1/4, 1/25, 1/50⟩ := by
  cases b <;> rfl

lemma projEval15 (b : Bool) :
    project_onto_board (0, board0det) (checkerAt (hPos 3 / 2) (1/4) b)
      = ⟨clasOf b, 1, 0, 7/12, 1/4, 1/25, 1/50⟩ := by
  cases b <;> rfl

lemma projEval16 (b : Bool) :
    project_onto_board (0, board0det) (checkerAt (hPos 4 / 2) (1/4) b)
      = ⟨clasOf b, 1, 0, 3/4, 1/4, 1/25, 1/50⟩ := by
  cases b <;> rfl

lemma projEval17 (b : Bool) :
    project_onto_board (0, board0det) (checkerAt (hPos 5 / 2) (1/4) b)
      = ⟨clasOf b, 1, 0, 11/12, 1/4, 1/25, 1/50⟩ := by
  cases b <;> rfl

lemma projEval0 (b : Bool) :
    project_onto_board (1, board1det) (checkerAt ((hPos 5 + 1)/2) (3/4) b)
      = ⟨clasOf b, 1, 1, 11/12, 3/4, 1/25, 1/50⟩ := by
  cases b <;> rfl

lemma projEval1 (b : Bool) :
    project_onto_board (1, board1det) (checkerAt ((hPos 4 + 1)/2) (3/4) b)
      = ⟨clasOf b, 1, 1, 3/4, 3/4, 1/25, 1/50⟩ := by
  cases b <;> rfl

lemma projEval2 (b : Bool) :
    project_onto_board (1, board1det) (checkerAt ((hPos 3 + 1)/2) (3/4) b)
      = ⟨clasOf b, 1, 1, 7/12, 3/4, 1/25, 1/50⟩ := by
  cases b <;> rfl

lemma projEval3 (b : Bool) :
    project_onto_board (1, board1det) (checkerAt ((hPos 2 + 1)/2) (3/4) b)
      = ⟨clasOf b, 1, 1, 5/12, 3/4, 1/25, 1/50⟩ := by
  cases b <;> rfl

lemma projEval4 (b : Bool) :
    project_onto_board (1, board1det) (checkerAt ((hPos 1 + 1)/2) (3/4) b)
      = ⟨clasOf b, 1, 1, 1/4, 3/4, 1/25, 1/50⟩ := by
  cases b <;> rfl

lemma projEval5 (b : Bool) :
    project_onto_board (1, board1det) (checkerAt ((hPos 0 + 1)/2) (3/4) b)
      = ⟨clasOf b, 1, 1, 1/12, 3/4, 1/25, 1/50⟩ := by
  cases b <;> rfl

lemma projEval18 (b : Bool) :
    project_onto_board (1, board1det) (checkerAt ((hPos 0 + 1)/2) (1/4) b)
      = ⟨clasOf b, 1, 1, 1/12, 1/4, 1/25, 1/50⟩ := by
  cases b <;> rfl

lemma projEval19 (b : Bool) :
    project_onto_board (1, board1det) (checkerAt ((hPos 1 + 1)/2) (1/4) b)
      = ⟨clasOf b, 1, 1, 1/4, 1/4, 1/25, 1/50⟩ := by
  cases b <;> rfl

lemma projEval20 (b : Bool) :
    project_onto_board (1, board1det) (checkerAt ((hPos 2 + 1)/2) (1/4) b)
      = ⟨clasOf b, 1, 1, 5/12, 1/4, 1/25, 1/50⟩ := by
  cases b <;> rfl

lemma projEval21 (b : Bool) :
    project_onto_board (1, board1det) (checkerAt ((hPos 3 + 1)/2) (1/4) b)
      = ⟨clasOf b, 1, 1, 7/12, 1/4, 1/25, 1/50⟩ := by
  cases b <;> rfl

lemma projEval22 (b : Bool) :
    project_onto_board (1, board1det) (checkerAt ((hPos 4 + 1)/2) (1/4) b)
      = ⟨clasOf b, 1, 1, 3/4, 1/4, 1/25, 1/50⟩ := by
  cases b <;> rfl

lemma projEval23 (b : Bool) :
    project_onto_board (1, board1det) (checkerAt ((hPos 5 + 1)/2) (1/4) b)
      = ⟨clasOf b, 1, 1, 11/12, 1/4, 1/25, 1/50⟩ := by
  cases b <;> rfl


lemma clasOf_isChecker (b : Bool) :
    (clasOf b == CLASS_CHECKER_P1 || clasOf b == CLASS_CHECKER_P2) = true := by
  cases b <;> rfl

lemma clasOf_beq_p2 (b : Bool) : (clasOf b == CLASS_CHECKER_P2) = b := by
  cases b <;> rfl

lemma board_notChecker :
    (CLASS_BOARD == CLASS_CHECKER_P1 || CLASS_BOARD == CLASS_CHECKER_P2) = false := rfl

lemma joinRows_checkers (c : ℕ → Bool) :
    (joinRows c).filter isChecker = projRows c := by
  simp only [joinRows, projBB00, projBB01, projBB10, projBB11,
    projEval0, projEval1, projEval2, projEval3, projEval4, projEval5,
    projEval6, projEval7, projEval8, projEval9, projEval10, projEval11,
    projEval12, projEval13, projEval14, projEval15, projEval16, projEval17,
    projEval18, projEval19, projEval20, projEval21, projEval22, projEval23]
  simp [isChecker, clasOf_isChecker, board_notChecker, projRows, projRow]

lemma projRows_split0 (c : ℕ → Bool) :
    (projRows c).filter (fun p => p.board_index == 0) = projRows0 c := by
  simp [projRows, projRows0, projRow]

lemma projRows_split1 (c : ℕ → Bool) :
    (projRows c).filter (fun p => p.board_index == 1) = projRows1 c := by
  simp [projRows, projRows1, projRow]

lemma inBucket_projRow (c : ℕ → Bool) (half : Half) (hcol k bi : ℕ) (x y : ℚ) :
    inBucket half hcol (projRow c k bi x y)
      = inBucket half hcol ⟨CLASS_CHECKER_P2, 1, 0, x, y, 1/25, 1/50⟩ := rfl

lemma sel_b0U0 (c : ℕ → Bool) :
    bucketSelect (projRows0 c) Half.UPPER 0 = [projRow c 12 0 (1/12) (1/4)] := by
  simp only [bucketSelect, projRows0, List.filter_cons, List.filter_nil, inBucket_projRow]
  rfl

lemma sel_b0U1 (c : ℕ → Bool) :
    bucketSelect (projRows0 c) Half.UPPER 1 = [projRow c 13 0 (1/4) (1/4)] := by
  simp only [bucketSelect, projRows0, List.filter_cons, List.filter_nil, inBucket_projRow]
  rfl

lemma sel_b0U2 (c : ℕ → Bool) :
    bucketSelect (projRows0 c) Half.UPPER 2 = [projRow c 14 0 (5/12) (1/4)] := by
  simp only [bucketSelect, projRows0, List.filter_cons, List.filter_nil, inBucket_projRow]
  rfl

lemma sel_b0U3 (c : ℕ → Bool) :
    bucketSelect (projRows0 c) Half.UPPER 3 = [projRow c 15 0 (7/12) (1/4)] := by
  simp only [bucketSelect, projRows0, List.filter_cons, List.filter_nil, inBucket_projRow]
  rfl

lemma sel_b0U4 (c : ℕ → Bool) :
    bucketSelect (projRows0 c) Half.UPPER 4 = [projRow c 16 0 (3/4) (1/4)] := by
  simp only [bucketSelect, projRows0, List.filter_cons, List.filter_nil, inBucket_projRow]
  rfl

lemma sel_b0U5 (c : ℕ → Bool) :
    bucketSelect (projRows0 c) Half.UPPER 5 = [projRow c 17 0 (11/12) (1/4)] := by
  simp only [bucketSelect, projRows0, List.filter_cons, List.filter_nil, inBucket_projRow]
  rfl

lemma sel_b0L0 (c : ℕ → Bool) :
    bucketSelect (projRows0 c) Half.LOWER 0 = [projRow c 11 0 (1/12) (3/4)] := by
  simp only [bucketSelect, projRows0, List.filter_cons, List.filter_nil, inBucket_projRow]
  rfl

lemma sel_b0L1 (c : ℕ → Bool) :
    bucketSelect (projRows0 c) Half.LOWER 1 = [projRow c 10 0 (1/4) (3/4)] := by
  simp only [bucketSelect, projRows0, List.filter_cons, List.filter_nil, inBucket_projRow]
  rfl

lemma sel_b0L2 (c : ℕ → Bool) :
    bucketSelect (projRows0 c) Half.LOWER 2 = [projRow c 9 0 (5/12) (3/4)] := by
  simp only [bucketSelect, projRows0, List.filter_cons, List.filter_nil, inBucket_projRow]
  rfl

lemma sel_b0L3 (c : ℕ → Bool) :
    bucketSelect (projRows0 c) Half.LOWER 3 = [projRow c 8 0 (7/12) (3/4)] := by
  simp only [bucketSelect, projRows0, List.filter_cons, List.filter_nil, inBucket_projRow]
  rfl

lemma sel_b0L4 (c : ℕ → Bool) :
    bucketSelect (projRows0 c) Half.LOWER 4 = [projRow c 7 0 (3/4) (3/4)] := by
  simp only [bucketSelect, projRows0, List.filter_cons, List.filter_nil, inBucket_projRow]
  rfl

lemma sel_b0L5 (c : ℕ → Bool) :
    bucketSelect (projRows0 c) Half.LOWER 5 = [projRow c 6 0 (11/12) (3/4)] := by
  simp only [bucketSelect, projRows0, List.filter_cons, List.filter_nil, inBucket_projRow]
  rfl

lemma sel_b1U0 (c : ℕ → Bool) :
    bucketSelect (projRows1 c) Half.UPPER 0 = [projRow c 18 1 (1/12) (1/4)] := by
  simp only [bucketSelect, projRows1, List.filter_cons, List.filter_nil, inBucket_projRow]
  rfl

lemma sel_b1U1 (c : ℕ → Bool) :
    bucketSelect (projRows1 c) Half.UPPER 1 = [projRow c 19 1 (1/4) (1/4)] := by
  simp only [bucketSelect, projRows1, List.filter_cons, List.filter_nil, inBucket_projRow]
  rfl

lemma sel_b1U2 (c : ℕ → Bool) :
    bucketSelect (projRows1 c) Half.UPPER 2 = [projRow c 20 1 (5/12) (1/4)] := by
  simp only [bucketSelect, projRows1, List.filter_cons, List.filter_nil, inBucket_projRow]
  rfl

lemma sel_b1U3 (c : ℕ → Bool) :
    bucketSelect (projRows1 c) Half.UPPER 3 = [projRow c 21 1 (7/12) (1/4)] := by
  simp only [bucketSelect, projRows1, List.filter_cons, List.filter_nil, inBucket_projRow]
  rfl

lemma sel_b1U4 (c : ℕ → Bool) :
    bucketSelect (projRows1 c) Half.UPPER 4 = [projRow c 22 1 (3/4) (1/4)] := by
  simp only [bucketSelect, projRows1, List.filter_cons, List.filter_nil, inBucket_projRow]
  rfl

lemma sel_b1U5 (c : ℕ → Bool) :
    bucketSelect (projRows1 c) Half.UPPER 5 = [projRow c 23 1 (11/12) (1/4)] := by
  simp only [bucketSelect, projRows1, List.filter_cons, List.filter_nil, inBucket_projRow]
  rfl

lemma sel_b1L0 (c : ℕ → Bool) :
    bucketSelect (projRows1 c) Half.LOWER 0 = [projRow c 5 1 (1/12) (3/4)] := by
  simp only [bucketSelect, projRows1, List.filter_cons, List.filter_nil, inBucket_projRow]
  rfl

lemma sel_b1L1 (c : ℕ → Bool) :
    bucketSelect (projRows1 c) Half.LOWER 1 = [projRow c 4 1 (1/4) (3/4)] := by
  simp only [bucketSelect, projRows1, List.filter_cons, List.filter_nil, inBucket_projRow]
  rfl

lemma sel_b1L2 (c : ℕ → Bool) :
    bucketSelect (projRows1 c) Half.LOWER 2 = [projRow c 3 1 (5/12) (3/4)] := by
  simp only [bucketSelect, projRows1, List.filter_cons, List.filter_nil, inBucket_projRow]
  rfl

lemma sel_b1L3 (c : ℕ → Bool) :
    bucketSelect (projRows1 c) Half.LOWER 3 = [projRow c 2 1 (7/12) (3/4)] := by
  simp only [bucketSelect, projRows1, List.filter_cons, List.filter_nil, inBucket_projRow]
  rfl

lemma sel_b1L4 (c : ℕ → Bool) :
    bucketSelect (projRows1 c) Half.LOWER 4 = [projRow c 1 1 (3/4) (3/4)] := by
  simp only [bucketSelect, projRows1, List.filter_cons, List.filter_nil, inBucket_projRow]
  rfl

lemma sel_b1L5 (c : ℕ → Bool) :
    bucketSelect (projRows1 c) Half.LOWER 5 = [projRow c 0 1 (11/12) (3/4)] := by
  simp only [bucketSelect, projRows1, List.filter_cons, List.filter_nil, inBucket_projRow]
  rfl


lemma clasOf_ne_board (b : Bool) : (clasOf b == CLASS_BOARD) = false := by
  cases b <;> rfl

lemma syntheticFrame_boards (c : ℕ → Bool) :
    boardsOf (syntheticFrame c) = [(0, board0det), (1, board1det)] := by
  have hf : (syntheticFrame c).filter (fun d => d.clas == CLASS_BOARD)
      = [board0det, board1det] := by
    simp [syntheticFrame, checkerAt, board0det, board1det, clasOf_ne_board]
  unfold boardsOf
  rw [hf]
  rfl

lemma syntheticFrame_sjoin (c : ℕ → Bool) :
    sjoinProject [(0, board0det), (1, board1det)] (syntheticFrame c) = joinRows c := by
  simp only [sjoinProject, syntheticFrame, List.flatMap_cons, List.flatMap_nil,
    List.append_nil, List.filter_cons, List.filter_nil, to_polygon_checkerAt]
  rfl

lemma bucketValue_singleton (p : ProjDetection) :
    bucketValue [p] = if p.clas == CLASS_CHECKER_P2 then 1 else -1 := by
  unfold bucketValue bucketClassIndex majorityClass classCounts sortedClasses
    nlargestClass bucketCount deduplicate_gdf
  simp [insertSortedDistinct, dedupFuel, List.filter]

lemma bucketValue_projRow (c : ℕ → Bool) (k bi : ℕ) (x y : ℚ) :
    bucketValue [projRow c k bi x y] = sign (c k) := by
  rw [bucketValue_singleton]
  simp [projRow, clasOf_beq_p2, sign]

lemma parse_half_board_state_eq (gdf : List ProjDetection) :
    parse_half_board_state gdf =
      [(7, bucketValue (bucketSelect gdf Half.UPPER 0)),
       (8, bucketValue (bucketSelect gdf Half.UPPER 1)),
       (9, bucketValue (bucketSelect gdf Half.UPPER 2)),
       (10, bucketValue (bucketSelect gdf Half.UPPER 3)),
       (11, bucketValue (bucketSelect gdf Half.UPPER 4)),
       (12, bucketValue (bucketSelect gdf Half.UPPER 5)),
       (6, bucketValue (bucketSelect gdf Half.LOWER 0)),
       (5, bucketValue (bucketSelect gdf Half.LOWER 1)),
       (4, bucketValue (bucketSelect gdf Half.LOWER 2)),
       (3, bucketValue (bucketSelect gdf Half.LOWER 3)),
       (2, bucketValue (bucketSelect gdf Half.LOWER 4)),
       (1, bucketValue (bucketSelect gdf Half.LOWER 5))] := rfl

lemma halfState0_eval (c : ℕ → Bool) :
    parse_half_board_state (projRows0 c) = halfState0 c := by
  rw [parse_half_board_state_eq,
    sel_b0U0, sel_b0U1, sel_b0U2, sel_b0U3, sel_b0U4, sel_b0U5,
    sel_b0L0, sel_b0L1, sel_b0L2, sel_b0L3, sel_b0L4, sel_b0L5]
  simp only [bucketValue_projRow]
  rfl

lemma halfState1_eval (c : ℕ → Bool) :
    parse_half_board_state (projRows1 c) = halfState1 c := by
  rw [parse_half_board_state_eq,
    sel_b1U0, sel_b1U1, sel_b1U2, sel_b1U3, sel_b1U4, sel_b1U5,
    sel_b1L0, sel_b1L1, sel_b1L2, sel_b1L3, sel_b1L4, sel_b1L5]
  simp only [bucketValue_projRow]
  rfl

lemma merge_halfStates (c : ℕ → Bool) :
    merge_states (halfState0 c) (halfState1 c) = expectedPoints c := rfl

lemma syntheticFrame_projected (c : ℕ → Bool) :
    projectedCheckers (syntheticFrame c) = projRows c := by
  unfold projectedCheckers
  rw [syntheticFrame_boards, syntheticFrame_sjoin, joinRows_checkers]

/-- C2: on the synthetic frame with the two canonical boards and, for
every canonical position, exactly one checker of class `clasOf (c (i-1))`
at that position's nominal column and half center, the full pipeline
returns status `VALID` and `Point_i` is `+1` where the checker is
`CHECKER_P2` (`c (i-1)` true) and `-1` where it is `CHECKER_P1`, for
every class assignment `c` and every `i` in 1..24. -/
theorem synthetic_frame_end_to_end (c : ℕ → Bool) :
    parse_single_prediction (syntheticFrame c) = ⟨Status.VALID, expectedPoints c⟩ ∧
    ∀ x, 1 ≤ x → x ≤ 24 →
      (parse_single_prediction (syntheticFrame c)).points.lookup x
        = some (if c (x - 1) then 1 else -1) := by
  have hb2 : (boardsOf (syntheticFrame c)).length = 2 := by
    rw [syntheticFrame_boards]
    rfl
  have hpne : projectedCheckers (syntheticFrame c) ≠ [] := by
    rw [syntheticFrame_projected]
    exact List.cons_ne_nil _ _
  have hsome := parse_board_state_some (syntheticFrame c) hb2 hpne
  rw [syntheticFrame_projected] at hsome
  rw [projRows_split0, projRows_split1, halfState0_eval, halfState1_eval,
    merge_halfStates] at hsome
  have hst : parse_single_prediction (syntheticFrame c)
      = ⟨Status.VALID, expectedPoints c⟩ := by
    unfold parse_single_prediction
    rw [hsome]
  refine ⟨hst, ?_⟩
  intro x h1 h2
  rw [hst]
  interval_cases x <;> rfl

/-- Witness for C2 at a concrete class assignment (alternating classes):
canonical point 2 holds a `CHECKER_P1` checker and reports `-1`. -/
theorem synthetic_frame_end_to_end_witness :
    (parse_single_prediction (syntheticFrame fun k => decide (k % 2 = 0))).points.lookup 2
      = some (-1) := by
  rw [(synthetic_frame_end_to_end fun k => decide (k % 2 = 0)).2 2 (by decide) (by decide)]
  rfl
